import Mathlib

/-!
Verification of the validated-enumeration decoding layer of the glTF mesh
schema module (`src/json/mesh.rs`).

The embedding is shallow: Rust strings become `List Char`, the machine
integer `u32` becomes `Nat` with explicit `< 2 ^ 32` bounds, the serde
visitors become total Lean functions, and fallible structural decoding
becomes `Except StructuralError`.  JSON-like input value trees are modelled
by the inductive `Json` below.
-/

namespace Gltf

/-- Modelled from the spec: the generic `Checked<T>` wrapper from the
`validation` module (not part of the shown source).  A tagged variant
`Valid(T) | Invalid`; `Invalid` is a marker only, carrying no payload. -/
inductive Checked (T : Type) where
  | Valid (value : T)
  | Invalid
deriving DecidableEq, Repr

/-- Corresponds to `GL_POINTS` (`pub const POINTS: u32 = 0`). -/
def POINTS : Nat := 0

/-- Corresponds to `GL_LINES`. -/
def LINES : Nat := 1

/-- Corresponds to `GL_LINE_LOOP`. -/
def LINE_LOOP : Nat := 2

/-- Corresponds to `GL_LINE_STRIP`. -/
def LINE_STRIP : Nat := 3

/-- Corresponds to `GL_TRIANGLES`. -/
def TRIANGLES : Nat := 4

/-- Corresponds to `GL_TRIANGLE_STRIP`. -/
def TRIANGLE_STRIP : Nat := 5

/-- Corresponds to `GL_TRIANGLE_FAN`. -/
def TRIANGLE_FAN : Nat := 6

/-- All valid primitive rendering modes (`VALID_MODES`). -/
def VALID_MODES : List Nat :=
  [POINTS, LINES, LINE_LOOP, LINE_STRIP, TRIANGLES, TRIANGLE_STRIP, TRIANGLE_FAN]

/-- All valid semantic names for Morph targets (`VALID_MORPH_TARGETS`). -/
def VALID_MORPH_TARGETS : List (List Char) :=
  ["POSITION".data, "NORMAL".data, "TANGENT".data]

/-- The type of primitives to render (`pub enum Mode`).  In the Rust source
the variants carry explicit discriminants `Points = 1, ..., TriangleFan = 7`;
those live in `Mode.discriminant` below. -/
inductive Mode where
  | Points
  | Lines
  | LineLoop
  | LineStrip
  | Triangles
  | TriangleStrip
  | TriangleFan
deriving DecidableEq, Repr

/-- `impl Default for Mode { fn default() -> Mode { Mode::Triangles } }`. -/
def Mode.default : Mode := .Triangles

/-- The integer obtained by casting a `Mode` value with `as u32`: the Rust
enum declares `Points = 1` and lets the remaining discriminants count up. -/
def Mode.discriminant : Mode → Nat
  | .Points => 1
  | .Lines => 2
  | .LineLoop => 3
  | .LineStrip => 4
  | .Triangles => 5
  | .TriangleStrip => 6
  | .TriangleFan => 7

/-- The `visit_u32` body of `Deserialize for Checked<Mode>`: match the raw
code against the `POINTS..TRIANGLE_FAN` constants, in source order, falling
through to `Invalid`. -/
def Mode.checkedOf (value : Nat) : Checked Mode :=
  if value = POINTS then .Valid .Points
  else if value = LINES then .Valid .Lines
  else if value = LINE_LOOP then .Valid .LineLoop
  else if value = LINE_STRIP then .Valid .LineStrip
  else if value = TRIANGLES then .Valid .Triangles
  else if value = TRIANGLE_STRIP then .Valid .TriangleStrip
  else if value = TRIANGLE_FAN then .Valid .TriangleFan
  else .Invalid

/-- Vertex attribute semantic name (`pub enum Semantic`).  The `Extras`
variant is the `cfg(feature = "extras")` vendor-extension case; the numeric
sets are `u32` in the source, embedded as `Nat` with explicit bounds where
they matter. -/
inductive Semantic where
  | Extras (name : List Char)
  | Positions
  | Normals
  | Tangents
  | Colors (set : Nat)
  | TexCoords (set : Nat)
  | Joints (set : Nat)
  | Weights (set : Nat)
deriving DecidableEq, Repr

/-- One accumulation step of Rust `u32::from_str` digit processing:
`result.checked_mul(10)` followed by `checked_add(digit)`; any overflow of
the 32-bit range or a non-digit character poisons the result. -/
def pushDigit (acc : Option Nat) (c : Char) : Option Nat :=
  match acc with
  | none => none
  | some n =>
    if c.isDigit then
      let v := n * 10 + (c.toNat - 48)
      if v < 2 ^ 32 then some v else none
    else none

/-- The digit-run part of Rust `u32::from_str_radix(.., 10)`: an empty digit
run is an error, otherwise the digits are folded left with overflow checks. -/
def digitsToU32 (l : List Char) : Option Nat :=
  if l.isEmpty then none else l.foldl pushDigit (some 0)

/-- Rust `str::parse::<u32>()`: an empty string is an error; a leading `'+'`
sign is accepted and skipped (a `'-'` is not, `u32` being unsigned); the
remainder must be a non-empty ASCII digit run whose value fits in 32 bits. -/
def parseU32 (l : List Char) : Option Nat :=
  match l with
  | [] => none
  | c :: rest => if c = '+' then digitsToU32 rest else digitsToU32 (c :: rest)

/-- Rust `str::starts_with` on the character-list embedding of strings:
the first `pre.length` characters of `s` are exactly `pre`. -/
def startsWithL (s pre : List Char) : Bool :=
  decide (s.take pre.length = pre)

/-- `Semantic::checked`: the match over the raw semantic-name string, in
source order — three exact names, the `cfg(feature = "extras")` underscore
guard (here a runtime capability flag `extras`), then the four
prefix-plus-index families, and finally `Invalid`.  The Rust slice
`s["COLOR_".len()..]` becomes `List.drop` of the prefix length, which the
`starts_with` guard keeps in bounds. -/
def Semantic.checked (extras : Bool) (s : List Char) : Checked Semantic :=
  if s = "NORMAL".data then .Valid .Normals
  else if s = "POSITION".data then .Valid .Positions
  else if s = "TANGENT".data then .Valid .Tangents
  else if extras && startsWithL s "_".data then .Valid (.Extras (s.drop 1))
  else if startsWithL s "COLOR_".data then
    match parseU32 (s.drop ("COLOR_".data).length) with
    | some set => .Valid (.Colors set)
    | none => .Invalid
  else if startsWithL s "TEXCOORD_".data then
    match parseU32 (s.drop ("TEXCOORD_".data).length) with
    | some set => .Valid (.TexCoords set)
    | none => .Invalid
  else if startsWithL s "JOINTS_".data then
    match parseU32 (s.drop ("JOINTS_".data).length) with
    | some set => .Valid (.Joints set)
    | none => .Invalid
  else if startsWithL s "WEIGHTS_".data then
    match parseU32 (s.drop ("WEIGHTS_".data).length) with
    | some set => .Valid (.Weights set)
    | none => .Invalid
  else .Invalid

/-- Bounds-checked model of a Rust byte-range slice `s[i..]`: `none` exactly
when the slice would panic for being out of range.  (All prefixes sliced off
in this module are ASCII, so the character-count index coincides with the
byte index and char-boundary panics cannot arise.) -/
def sliceFrom (l : List Char) (i : Nat) : Option (List Char) :=
  if i ≤ l.length then some (l.drop i) else none

/-- `Semantic::checked` again, but with every Rust slice routed through the
bounds-checked `sliceFrom`, so that a would-be out-of-bounds slice panic
surfaces as `none` instead of being silently truncated. -/
def Semantic.checkedSafe (extras : Bool) (s : List Char) : Option (Checked Semantic) :=
  if s = "NORMAL".data then some (.Valid .Normals)
  else if s = "POSITION".data then some (.Valid .Positions)
  else if s = "TANGENT".data then some (.Valid .Tangents)
  else if extras && startsWithL s "_".data then
    (sliceFrom s 1).map fun r => .Valid (.Extras r)
  else if startsWithL s "COLOR_".data then
    (sliceFrom s ("COLOR_".data).length).map fun r =>
      match parseU32 r with
      | some set => .Valid (.Colors set)
      | none => .Invalid
  else if startsWithL s "TEXCOORD_".data then
    (sliceFrom s ("TEXCOORD_".data).length).map fun r =>
      match parseU32 r with
      | some set => .Valid (.TexCoords set)
      | none => .Invalid
  else if startsWithL s "JOINTS_".data then
    (sliceFrom s ("JOINTS_".data).length).map fun r =>
      match parseU32 r with
      | some set => .Valid (.Joints set)
      | none => .Invalid
  else if startsWithL s "WEIGHTS_".data then
    (sliceFrom s ("WEIGHTS_".data).length).map fun r =>
      match parseU32 r with
      | some set => .Valid (.Weights set)
      | none => .Invalid
  else some .Invalid

/-- Fuel-driven most-significant-first decimal digit expansion; `fuel > n`
suffices since `n / 10 < n` for `n ≥ 10`. -/
def natToDigitsAux : Nat → Nat → List Char
  | 0, _ => []
  | fuel + 1, n =>
    if n < 10 then [Nat.digitChar n]
    else natToDigitsAux fuel (n / 10) ++ [Nat.digitChar (n % 10)]

/-- Standard decimal representation of a natural number, as produced by the
Rust `Display` implementation for `u32` used by `format!(\"COLOR_\x7b\x7d\", set)`. -/
def natToDigits (n : Nat) : List Char := natToDigitsAux (n + 1) n

/-- `impl ToString for Semantic`: the canonical encoded form of each
variant, `format!`-built from the family name and the decimal set index. -/
def Semantic.toChars : Semantic → List Char
  | .Positions => "POSITION".data
  | .Normals => "NORMAL".data
  | .Tangents => "TANGENT".data
  | .Colors set => "COLOR_".data ++ natToDigits set
  | .TexCoords set => "TEXCOORD_".data ++ natToDigits set
  | .Joints set => "JOINTS_".data ++ natToDigits set
  | .Weights set => "WEIGHTS_".data ++ natToDigits set
  | .Extras name => "_".data ++ name

/-- `impl ToString for Checked<Semantic>`: a `Valid` semantic renders
canonically; `Invalid` renders as a fixed diagnostic placeholder. -/
def Checked.toChars : Checked Semantic → List Char
  | .Valid semantic => semantic.toChars
  | .Invalid => "<invalid semantic name>".data

/-- The generic structured value tree handed to the decoders (the JSON data
model).  Numbers are embedded as `Int`: the claims under study only exercise
integer-valued fields, and the float-typed `weights` payload is carried,
never computed with. -/
inductive Json where
  | null
  | bool (b : Bool)
  | num (n : Int)
  | str (s : List Char)
  | arr (elems : List Json)
  | obj (fields : List (List Char × Json))

/-- The structural (serde) error kinds the decoders below can raise: a
required field absent at end of map, a field repeated, or a value of the
wrong fundamental shape. -/
inductive StructuralError where
  | missingField (name : List Char)
  | duplicateField (name : List Char)
  | invalidType (expected : List Char)
deriving DecidableEq, Repr

/-- First-match field lookup in a JSON object, used to state which fields an
input does or does not carry. -/
def lookupField : List (List Char × Json) → List Char → Option Json
  | [], _ => none
  | (k, v) :: rest, key => if k = key then some v else lookupField rest key

/-- serde decode of a `u32`-typed value: the value must be a number within
the 32-bit unsigned range, anything else is a structural error. -/
def decodeU32 (j : Json) : Except StructuralError Nat :=
  match j with
  | .num n => if 0 ≤ n ∧ n < (2 : Int) ^ 32 then .ok n.toNat else .error (.invalidType "u32".data)
  | _ => .error (.invalidType "u32".data)

/-- serde decode of an `Option`-typed reference field (`Option<Index<T>>`):
`null` decodes to `none`, anything else must decode as the inner `u32`.
`Index<T>` itself lives outside the shown source; modelled from the spec as
an opaque external reference index. -/
def decodeOptU32 (j : Json) : Except StructuralError (Option Nat) :=
  match j with
  | .null => .ok none
  | _ => (decodeU32 j).map some

/-- `Deserialize for Checked<Mode>`: `deserializer.deserialize_u32(Visitor)`
— the shape of the raw value must be a `u32` (else a structural error), and
the total `visit_u32` body then classifies the code. -/
def decodeCheckedMode (j : Json) : Except StructuralError (Checked Mode) :=
  (decodeU32 j).map Mode.checkedOf

/-- Decode of the `MeshExtensions` / `PrimitiveExtensions` structs: any JSON
object is accepted (their single `_allow_unknown_fields: ()` member is
defaulted and every unknown nested key is ignored); a value of any other
shape is a structural error. -/
def decodeExtensionsObj (j : Json) : Except StructuralError Unit :=
  match j with
  | .obj _ => .ok ()
  | _ => .error (.invalidType "object".data)

/-- Modelled from the spec: the `json::Extras` application-data type (not in
the shown source) is opaque and decodes permissively from any value. -/
def decodeExtras (j : Json) : Except StructuralError Json := .ok j

/-- Replace-or-append insertion into an association list: the observable
behaviour of `HashMap::insert` during map deserialization (a repeated key
overwrites the previous value — last write wins). -/
def insertKV (m : List (Checked Semantic × Nat)) (k : Checked Semantic) (v : Nat) :
    List (Checked Semantic × Nat) :=
  match m with
  | [] => [(k, v)]
  | (k', v') :: rest => if k' = k then (k, v) :: rest else (k', v') :: insertKV rest k v

/-- Association-list lookup mirroring `HashMap::get` on the decoded
attribute map. -/
def lookupKV (m : List (Checked Semantic × Nat)) (k : Checked Semantic) : Option Nat :=
  match m with
  | [] => none
  | (k', v') :: rest => if k' = k then some v' else lookupKV rest k

/-- The entry loop of `HashMap<Checked<Semantic>, Index<Accessor>>`
deserialization: each key string goes through `Semantic::checked` (the
`visit_str` body, which never fails), each value must decode as a `u32`
index, and the pair is inserted into the map. -/
def decodeAttrEntries (extras : Bool) :
    List (List Char × Json) → List (Checked Semantic × Nat) →
    Except StructuralError (List (Checked Semantic × Nat))
  | [], acc => .ok acc
  | (k, v) :: rest, acc =>
    match decodeU32 v with
    | .error e => .error e
    | .ok n => decodeAttrEntries extras rest (insertKV acc (Semantic.checked extras k) n)

/-- serde decode of the `attributes` map: the raw value must be an object,
whose entries are folded through `decodeAttrEntries`. -/
def decodeAttributes (extras : Bool) (j : Json) :
    Except StructuralError (List (Checked Semantic × Nat)) :=
  match j with
  | .obj fields => decodeAttrEntries extras fields []
  | _ => .error (.invalidType "map".data)

/-- A dictionary mapping attributes to their deviations in the Morph Target
(`pub struct MorphTargets`): three optional accessor references, serde-named
`POSITION` / `NORMAL` / `TANGENT`. -/
structure MorphTargets where
  positions : Option Nat
  normals : Option Nat
  tangents : Option Nat
deriving DecidableEq, Repr

/-- Field slots for the serde-derive map visitor of `MorphTargets`: `none`
means the field has not been seen yet. -/
structure MorphSlots where
  positions : Option (Option Nat) := none
  normals : Option (Option Nat) := none
  tangents : Option (Option Nat) := none

/-- One field of the `MorphTargets` map visitor: known keys decode into
their slot (a repetition is a `duplicate field` error), unknown keys are
ignored. -/
def morphStep (s : MorphSlots) (k : List Char) (v : Json) :
    Except StructuralError MorphSlots :=
  if k = "POSITION".data then
    if (s.positions).isSome then .error (.duplicateField "POSITION".data)
    else (decodeOptU32 v).map fun x => { s with positions := some x }
  else if k = "NORMAL".data then
    if (s.normals).isSome then .error (.duplicateField "NORMAL".data)
    else (decodeOptU32 v).map fun x => { s with normals := some x }
  else if k = "TANGENT".data then
    if (s.tangents).isSome then .error (.duplicateField "TANGENT".data)
    else (decodeOptU32 v).map fun x => { s with tangents := some x }
  else .ok s

/-- The field loop of the `MorphTargets` map visitor. -/
def decodeMorphFields : List (List Char × Json) → MorphSlots →
    Except StructuralError MorphSlots
  | [], s => .ok s
  | (k, v) :: rest, s =>
    match morphStep s k v with
    | .error e => .error e
    | .ok s' => decodeMorphFields rest s'

/-- serde decode of one `MorphTargets` value: the raw value must be an
object; every `Option`-typed field that was never seen ends up `none`. -/
def decodeMorphTargets (j : Json) : Except StructuralError MorphTargets :=
  match j with
  | .obj fields =>
    (decodeMorphFields fields {}).map fun s =>
      { positions := (s.positions).getD none
        normals := (s.normals).getD none
        tangents := (s.tangents).getD none }
  | _ => .error (.invalidType "struct MorphTargets".data)

/-- Element loop for `Vec<MorphTargets>`. -/
def decodeMorphList : List Json → Except StructuralError (List MorphTargets)
  | [] => .ok []
  | x :: rest =>
    match decodeMorphTargets x with
    | .error e => .error e
    | .ok t =>
      match decodeMorphList rest with
      | .error e => .error e
      | .ok ts => .ok (t :: ts)

/-- serde decode of the `targets: Option<Vec<MorphTargets>>` field value:
`null` is `none`, an array maps every element, anything else is a
structural error. -/
def decodeTargets (j : Json) : Except StructuralError (Option (List MorphTargets)) :=
  match j with
  | .null => .ok none
  | .arr xs => (decodeMorphList xs).map some
  | _ => .error (.invalidType "sequence".data)

/-- Geometry to be rendered with the given material
(`pub struct Primitive`).  `extensions` is the unit-like permissive struct,
`extras` the opaque application data, `mode` the checked rendering mode. -/
structure Primitive where
  attributes : List (Checked Semantic × Nat)
  extensions : Unit
  extras : Json
  indices : Option Nat
  material : Option Nat
  mode : Checked Mode
  targets : Option (List MorphTargets)

/-- Modelled from the spec: `impl<T: Default> Default for Checked<T>` from
the `validation` module (not in the shown source) — the default checked
value of a defaultable payload is `Valid` of the payload's default. -/
def Checked.mkDefault {T : Type} (d : T) : Checked T := .Valid d

/-- Field slots for the serde-derive map visitor of `Primitive`. -/
structure PrimSlots where
  attributes : Option (List (Checked Semantic × Nat)) := none
  extensions : Option Unit := none
  extras : Option Json := none
  indices : Option (Option Nat) := none
  material : Option (Option Nat) := none
  mode : Option (Checked Mode) := none
  targets : Option (Option (List MorphTargets)) := none

/-- One field of the `Primitive` map visitor, in struct declaration order:
known keys decode into their slot (repetition is a `duplicate field` error),
unknown keys are ignored. -/
def primStep (extras : Bool) (s : PrimSlots) (k : List Char) (v : Json) :
    Except StructuralError PrimSlots :=
  if k = "attributes".data then
    if (s.attributes).isSome then .error (.duplicateField "attributes".data)
    else (decodeAttributes extras v).map fun x => { s with attributes := some x }
  else if k = "extensions".data then
    if (s.extensions).isSome then .error (.duplicateField "extensions".data)
    else (decodeExtensionsObj v).map fun x => { s with extensions := some x }
  else if k = "extras".data then
    if (s.extras).isSome then .error (.duplicateField "extras".data)
    else (decodeExtras v).map fun x => { s with extras := some x }
  else if k = "indices".data then
    if (s.indices).isSome then .error (.duplicateField "indices".data)
    else (decodeOptU32 v).map fun x => { s with indices := some x }
  else if k = "material".data then
    if (s.material).isSome then .error (.duplicateField "material".data)
    else (decodeOptU32 v).map fun x => { s with material := some x }
  else if k = "mode".data then
    if (s.mode).isSome then .error (.duplicateField "mode".data)
    else (decodeCheckedMode v).map fun x => { s with mode := some x }
  else if k = "targets".data then
    if (s.targets).isSome then .error (.duplicateField "targets".data)
    else (decodeTargets v).map fun x => { s with targets := some x }
  else .ok s

/-- The field loop of the `Primitive` map visitor. -/
def decodePrimitiveFields (extras : Bool) : List (List Char × Json) → PrimSlots →
    Except StructuralError PrimSlots
  | [], s => .ok s
  | (k, v) :: rest, s =>
    match primStep extras s k v with
    | .error e => .error e
    | .ok s' => decodePrimitiveFields extras rest s'

/-- End-of-map finalization of the `Primitive` visitor: the required
`attributes` field must have been seen, `#[serde(default)]` fields fall
back to their `Default` values — in particular an absent `mode` becomes
`Checked::<Mode>::default()`, i.e. `Valid(Mode::default())` — and absent
`Option` fields become `none`. -/
def primitiveOfSlots (s : PrimSlots) : Except StructuralError Primitive :=
  match s.attributes with
  | none => .error (.missingField "attributes".data)
  | some attrs =>
    .ok { attributes := attrs
          extensions := (s.extensions).getD ()
          extras := (s.extras).getD Json.null
          indices := (s.indices).getD none
          material := (s.material).getD none
          mode := (s.mode).getD (Checked.mkDefault Mode.default)
          targets := (s.targets).getD none }

/-- serde decode of one `Primitive`: the raw value must be an object; the
field loop runs and the slots are finalized. -/
def decodePrimitive (extras : Bool) (j : Json) : Except StructuralError Primitive :=
  match j with
  | .obj fields =>
    match decodePrimitiveFields extras fields {} with
    | .error e => .error e
    | .ok s => primitiveOfSlots s
  | _ => .error (.invalidType "struct Primitive".data)

/-- Element loop for `Vec<Primitive>`. -/
def decodePrimitiveList (extras : Bool) : List Json →
    Except StructuralError (List Primitive)
  | [] => .ok []
  | x :: rest =>
    match decodePrimitive extras x with
    | .error e => .error e
    | .ok p =>
      match decodePrimitiveList extras rest with
      | .error e => .error e
      | .ok ps => .ok (p :: ps)

/-- serde decode of the required `primitives: Vec<Primitive>` field value:
it must be an array (a `Vec` is not an `Option`, so `null` is a structural
error too). -/
def decodePrimitivesField (extras : Bool) (j : Json) :
    Except StructuralError (List Primitive) :=
  match j with
  | .arr xs => decodePrimitiveList extras xs
  | _ => .error (.invalidType "sequence".data)

/-- Element loop for `Vec<f32>`: every element must be a number.  The float
payload itself is carried opaquely (floating point is out of scope), so the
embedding keeps the raw integer value. -/
def decodeNumList : List Json → Except StructuralError (List Int)
  | [] => .ok []
  | x :: rest =>
    match x with
    | .num n =>
      match decodeNumList rest with
      | .error e => .error e
      | .ok ns => .ok (n :: ns)
    | _ => .error (.invalidType "f32".data)

/-- serde decode of the `weights: Option<Vec<f32>>` field value. -/
def decodeWeights (j : Json) : Except StructuralError (Option (List Int)) :=
  match j with
  | .null => .ok none
  | .arr xs => (decodeNumList xs).map some
  | _ => .error (.invalidType "sequence".data)

/-- A set of primitives to be rendered (`pub struct Mesh`).  The
`cfg(feature = "names")` name field is omitted with the feature disabled. -/
structure Mesh where
  extensions : Unit
  extras : Json
  primitives : List Primitive
  weights : Option (List Int)

/-- Field slots for the serde-derive map visitor of `Mesh`. -/
structure MeshSlots where
  extensions : Option Unit := none
  extras : Option Json := none
  primitives : Option (List Primitive) := none
  weights : Option (Option (List Int)) := none

/-- One field of the `Mesh` map visitor, in struct declaration order. -/
def meshStep (extras : Bool) (s : MeshSlots) (k : List Char) (v : Json) :
    Except StructuralError MeshSlots :=
  if k = "extensions".data then
    if (s.extensions).isSome then .error (.duplicateField "extensions".data)
    else (decodeExtensionsObj v).map fun x => { s with extensions := some x }
  else if k = "extras".data then
    if (s.extras).isSome then .error (.duplicateField "extras".data)
    else (decodeExtras v).map fun x => { s with extras := some x }
  else if k = "primitives".data then
    if (s.primitives).isSome then .error (.duplicateField "primitives".data)
    else (decodePrimitivesField extras v).map fun x => { s with primitives := some x }
  else if k = "weights".data then
    if (s.weights).isSome then .error (.duplicateField "weights".data)
    else (decodeWeights v).map fun x => { s with weights := some x }
  else .ok s

/-- The field loop of the `Mesh` map visitor. -/
def decodeMeshFields (extras : Bool) : List (List Char × Json) → MeshSlots →
    Except StructuralError MeshSlots
  | [], s => .ok s
  | (k, v) :: rest, s =>
    match meshStep extras s k v with
    | .error e => .error e
    | .ok s' => decodeMeshFields extras rest s'

/-- End-of-map finalization of the `Mesh` visitor: the required
`primitives` field must have been seen, else the decode of this node aborts
with a `missing field` structural error. -/
def meshOfSlots (s : MeshSlots) : Except StructuralError Mesh :=
  match s.primitives with
  | none => .error (.missingField "primitives".data)
  | some ps =>
    .ok { extensions := (s.extensions).getD ()
          extras := (s.extras).getD Json.null
          primitives := ps
          weights := (s.weights).getD none }

/-- serde decode of one `Mesh`: the raw value must be an object; the field
loop runs and the slots are finalized. -/
def decodeMesh (extras : Bool) (j : Json) : Except StructuralError Mesh :=
  match j with
  | .obj fields =>
    match decodeMeshFields extras fields {} with
    | .error e => .error e
    | .ok s => meshOfSlots s
  | _ => .error (.invalidType "struct Mesh".data)


/-! ## Lemmas about the decimal digit machinery -/

/-- For every decimal digit value, `Nat.digitChar` yields an ASCII digit
character, its numeric value recovers the digit, and it is not a sign. -/
theorem digitChar_spec : ∀ d : Nat, d < 10 →
    (Nat.digitChar d).isDigit = true ∧ (Nat.digitChar d).toNat - 48 = d ∧
    Nat.digitChar d ≠ '+' := by decide

/-- The fuel-driven digit expansion never returns the empty list when the
fuel exceeds the number. -/
theorem natToDigitsAux_ne_nil : ∀ (fuel n : Nat), n < fuel →
    natToDigitsAux fuel n ≠ [] := by
  intro fuel n h
  cases fuel with
  | zero => omega
  | succ f =>
    unfold natToDigitsAux
    split
    · simp
    · simp

/-- The digit expansion starts with a digit character. -/
theorem natToDigitsAux_head : ∀ (fuel n : Nat), n < fuel →
    ∃ d rest, d < 10 ∧ natToDigitsAux fuel n = Nat.digitChar d :: rest := by
  intro fuel
  induction fuel with
  | zero => intro n h; omega
  | succ f ih =>
    intro n hf
    unfold natToDigitsAux
    by_cases h10 : n < 10
    · rw [if_pos h10]
      exact ⟨n, [], h10, rfl⟩
    · rw [if_neg h10]
      have hdiv : n / 10 < n := Nat.div_lt_self (by omega) (by omega)
      obtain ⟨d, rest, hd, heq⟩ := ih (n / 10) (by omega)
      exact ⟨d, rest ++ [Nat.digitChar (n % 10)], hd, by rw [heq]; rfl⟩

/-- The checked digit fold recovers exactly the encoded number, as long as
the number fits in 32 bits. -/
theorem digitsToU32_natToDigitsAux : ∀ (fuel n : Nat), n < fuel → n < 2 ^ 32 →
    digitsToU32 (natToDigitsAux fuel n) = some n := by
  intro fuel
  induction fuel with
  | zero => intro n h; omega
  | succ f ih =>
    intro n hf hb
    unfold natToDigitsAux
    by_cases h10 : n < 10
    · rw [if_pos h10]
      have hd := digitChar_spec n h10
      simp [digitsToU32, pushDigit, hd.1, hd.2.1, hb]
      omega
    · rw [if_neg h10]
      have hdiv : n / 10 < n := Nat.div_lt_self (by omega) (by omega)
      have hIH := ih (n / 10) (by omega) (by omega)
      obtain ⟨d, rest, hd, heq⟩ := natToDigitsAux_head f (n / 10) (by omega)
      rw [heq]
      rw [heq] at hIH
      have hfold : List.foldl pushDigit (some 0) (Nat.digitChar d :: rest) = some (n / 10) := by
        simpa [digitsToU32] using hIH
      have hmod := digitChar_spec (n % 10) (by omega)
      rw [show (Nat.digitChar d :: rest) ++ [Nat.digitChar (n % 10)] =
        Nat.digitChar d :: (rest ++ [Nat.digitChar (n % 10)]) from rfl]
      simp only [digitsToU32, List.isEmpty_cons, Bool.false_eq_true, if_false]
      rw [show Nat.digitChar d :: (rest ++ [Nat.digitChar (n % 10)]) =
        (Nat.digitChar d :: rest) ++ [Nat.digitChar (n % 10)] from rfl]
      rw [List.foldl_append, hfold]
      simp only [List.foldl, pushDigit, hmod.1, if_true, hmod.2.1]
      have hval : n / 10 * 10 + n % 10 = n := by omega
      rw [hval, if_pos hb]

/-- `parseU32` is a left inverse of the decimal encoding on the 32-bit
range. -/
theorem parseU32_natToDigits (n : Nat) (hb : n < 2 ^ 32) :
    parseU32 (natToDigits n) = some n := by
  obtain ⟨d, rest, hd, heq⟩ := natToDigitsAux_head (n + 1) n (by omega)
  have hmain := digitsToU32_natToDigitsAux (n + 1) n (by omega) hb
  unfold natToDigits
  rw [heq]
  rw [heq] at hmain
  simp only [parseU32]
  rw [if_neg (by simpa using (digitChar_spec d hd).2.2)]
  exact hmain

/-! ## Lemmas about the semantic-name grammar -/

/-- A matched prefix is never longer than the matched string. -/
theorem startsWithL_length (s pre : List Char) (h : startsWithL s pre = true) :
    pre.length ≤ s.length := by
  have htake : s.take pre.length = pre := of_decide_eq_true h
  have hlen := congrArg List.length htake
  rw [List.length_take] at hlen
  omega

/-- Behaviour of `Semantic::checked` on a `COLOR_`-prefixed name: the fate
of the whole name is exactly the fate of the `u32` parse of the suffix. -/
theorem checked_color_append (extras : Bool) (suffix : List Char) :
    Semantic.checked extras ("COLOR_".data ++ suffix) =
      match parseU32 suffix with
      | some set => Checked.Valid (Semantic.Colors set)
      | none => Checked.Invalid := by
  cases extras <;> rfl

/-- Behaviour of `Semantic::checked` on a `TEXCOORD_`-prefixed name. -/
theorem checked_texcoord_append (extras : Bool) (suffix : List Char) :
    Semantic.checked extras ("TEXCOORD_".data ++ suffix) =
      match parseU32 suffix with
      | some set => Checked.Valid (Semantic.TexCoords set)
      | none => Checked.Invalid := by
  cases extras <;> rfl

/-- Behaviour of `Semantic::checked` on a `JOINTS_`-prefixed name. -/
theorem checked_joints_append (extras : Bool) (suffix : List Char) :
    Semantic.checked extras ("JOINTS_".data ++ suffix) =
      match parseU32 suffix with
      | some set => Checked.Valid (Semantic.Joints set)
      | none => Checked.Invalid := by
  cases extras <;> rfl

/-- Behaviour of `Semantic::checked` on a `WEIGHTS_`-prefixed name. -/
theorem checked_weights_append (extras : Bool) (suffix : List Char) :
    Semantic.checked extras ("WEIGHTS_".data ++ suffix) =
      match parseU32 suffix with
      | some set => Checked.Valid (Semantic.Weights set)
      | none => Checked.Invalid := by
  cases extras <;> rfl

/-- The bounds-checked reading of `Semantic::checked` agrees with the total
one: every slice taken under a `starts_with` guard is in bounds, so the
parser can never panic and always delivers a `Checked` value. -/
theorem checkedSafe_eq (extras : Bool) (s : List Char) :
    Semantic.checkedSafe extras s = some (Semantic.checked extras s) := by
  unfold Semantic.checked Semantic.checkedSafe
  split_ifs with h1 h2 h3 h4 h5 h6 h7 h8
  · rfl
  · rfl
  · rfl
  · have hsw : startsWithL s "_".data = true := ((Bool.and_eq_true _ _).mp h4).2
    have hlen := startsWithL_length s "_".data hsw
    rw [sliceFrom, if_pos (by simpa using hlen)]
    rfl
  · rw [sliceFrom, if_pos (startsWithL_length s "COLOR_".data h5)]
    rfl
  · rw [sliceFrom, if_pos (startsWithL_length s "TEXCOORD_".data h6)]
    rfl
  · rw [sliceFrom, if_pos (startsWithL_length s "JOINTS_".data h7)]
    rfl
  · rw [sliceFrom, if_pos (startsWithL_length s "WEIGHTS_".data h8)]
    rfl
  · rfl

/-- The numeric-set payload of a `Semantic` value fits in a `u32`.  `True`
for the payload-free variants. -/
def Semantic.setBound : Semantic → Prop
  | .Colors set => set < 2 ^ 32
  | .TexCoords set => set < 2 ^ 32
  | .Joints set => set < 2 ^ 32
  | .Weights set => set < 2 ^ 32
  | _ => True

/-! ## Claims about the Mode enumeration decoder -/

/-- C1: decoding an integer as a `Checked<Mode>` yields `Valid` of the
corresponding variant for the codes 0–6, mapped in that exact order to
Points, Lines, LineLoop, LineStrip, Triangles, TriangleStrip, TriangleFan,
and yields `Invalid` for every other integer — no error, no default
substitution. -/
theorem mode_decoding_closed_set :
    Mode.checkedOf 0 = .Valid .Points ∧
    Mode.checkedOf 1 = .Valid .Lines ∧
    Mode.checkedOf 2 = .Valid .LineLoop ∧
    Mode.checkedOf 3 = .Valid .LineStrip ∧
    Mode.checkedOf 4 = .Valid .Triangles ∧
    Mode.checkedOf 5 = .Valid .TriangleStrip ∧
    Mode.checkedOf 6 = .Valid .TriangleFan ∧
    ∀ n : Nat, n ∉ VALID_MODES → Mode.checkedOf n = .Invalid := by
  refine ⟨rfl, rfl, rfl, rfl, rfl, rfl, rfl, ?_⟩
  intro n hn
  simp only [VALID_MODES, POINTS, LINES, LINE_LOOP, LINE_STRIP, TRIANGLES,
    TRIANGLE_STRIP, TRIANGLE_FAN, List.mem_cons, List.not_mem_nil, or_false,
    not_or] at hn
  obtain ⟨h0, h1, h2, h3, h4, h5, h6⟩ := hn
  simp [Mode.checkedOf, POINTS, LINES, LINE_LOOP, LINE_STRIP, TRIANGLES,
    TRIANGLE_STRIP, TRIANGLE_FAN, h0, h1, h2, h3, h4, h5, h6]

/-- Witness for C1 at the concrete out-of-set code 7. -/
theorem mode_decoding_closed_set_witness : Mode.checkedOf 7 = .Invalid :=
  mode_decoding_closed_set.2.2.2.2.2.2.2 7 (by decide)

/-- C10: the Rust enum discriminants of `Mode` are 1 through 7 — offset by
one from the wire codes 0 through 6 — so casting a variant to an integer
never yields a code that decodes back to the same variant; for example
`Points` casts to 1, and code 1 decodes to `Valid Lines`. -/
theorem mode_discriminant_offset :
    Mode.discriminant .Points = 1 ∧
    Mode.discriminant .Lines = 2 ∧
    Mode.discriminant .LineLoop = 3 ∧
    Mode.discriminant .LineStrip = 4 ∧
    Mode.discriminant .Triangles = 5 ∧
    Mode.discriminant .TriangleStrip = 6 ∧
    Mode.discriminant .TriangleFan = 7 ∧
    (∀ m : Mode, Mode.checkedOf (Mode.discriminant m) ≠ .Valid m) ∧
    Mode.checkedOf (Mode.discriminant .Points) = .Valid .Lines := by
  refine ⟨rfl, rfl, rfl, rfl, rfl, rfl, rfl, ?_, rfl⟩
  intro m
  cases m <;> decide

/-- Witness for C10 at the concrete variant `TriangleFan`, whose cast value
7 decodes to `Invalid` rather than back to itself. -/
theorem mode_discriminant_offset_witness :
    Mode.checkedOf (Mode.discriminant .TriangleFan) ≠ .Valid .TriangleFan :=
  mode_discriminant_offset.2.2.2.2.2.2.2.1 .TriangleFan

/-! ## Claims about the Semantic name decoder -/

/-- C3: `Checked` decoding is total and never fails the surrounding
structural decode: on every string the semantic parser delivers a `Checked`
value — the bounds-checked run agrees with the total one, so no
out-of-bounds slice panic is possible — and on every integer the mode
decoder delivers a `Checked` value. -/
theorem checked_decoding_total :
    (∀ (extras : Bool) (s : List Char),
        Semantic.checkedSafe extras s = some (Semantic.checked extras s)) ∧
    (∀ n : Nat, Mode.checkedOf n = .Invalid ∨ ∃ m, Mode.checkedOf n = .Valid m) := by
  constructor
  · exact checkedSafe_eq
  · intro n
    cases h : Mode.checkedOf n with
    | Valid m => exact Or.inr ⟨m, rfl⟩
    | Invalid => exact Or.inl rfl

/-- Witness for C3 at a concrete string and a concrete integer. -/
theorem checked_decoding_total_witness :
    Semantic.checkedSafe false "COLOR_3".data =
      some (Semantic.checked false "COLOR_3".data) ∧
    (Mode.checkedOf 99 = .Invalid ∨ ∃ m, Mode.checkedOf 99 = .Valid m) :=
  ⟨checked_decoding_total.1 false "COLOR_3".data, checked_decoding_total.2 99⟩

/-- C4 counterexample: the claim says a suffix containing a sign character
yields `Invalid`, but `"COLOR_+3"` decodes to `Valid (Colors 3)` — Rust
`u32` parsing accepts a leading plus sign. -/
theorem plus_sign_suffix_counterexample :
    Semantic.checked false "COLOR_+3".data = .Valid (.Colors 3) ∧
    Semantic.checked true "COLOR_+3".data = .Valid (.Colors 3) ∧
    Semantic.checked false "COLOR_+3".data ≠ .Invalid := by
  exact ⟨by decide, by decide, by decide⟩

/-- C4 (amended): for each of the `COLOR_` / `TEXCOORD_` / `JOINTS_` /
`WEIGHTS_` families the index suffix is accepted exactly when Rust
`u32::from_str` accepts it — which permits one optional leading `'+'` sign;
a minus sign, whitespace, any other non-digit, 32-bit overflow, or an empty
suffix yields `Invalid` for that field, never a structural error. -/
theorem semantic_index_suffix_parse :
    (∀ (extras : Bool) (suffix : List Char),
        Semantic.checked extras ("COLOR_".data ++ suffix) =
          match parseU32 suffix with
          | some set => Checked.Valid (Semantic.Colors set)
          | none => Checked.Invalid) ∧
    (∀ (extras : Bool) (suffix : List Char),
        Semantic.checked extras ("TEXCOORD_".data ++ suffix) =
          match parseU32 suffix with
          | some set => Checked.Valid (Semantic.TexCoords set)
          | none => Checked.Invalid) ∧
    (∀ (extras : Bool) (suffix : List Char),
        Semantic.checked extras ("JOINTS_".data ++ suffix) =
          match parseU32 suffix with
          | some set => Checked.Valid (Semantic.Joints set)
          | none => Checked.Invalid) ∧
    (∀ (extras : Bool) (suffix : List Char),
        Semantic.checked extras ("WEIGHTS_".data ++ suffix) =
          match parseU32 suffix with
          | some set => Checked.Valid (Semantic.Weights set)
          | none => Checked.Invalid) ∧
    parseU32 "+3".data = some 3 ∧
    parseU32 "-1".data = none ∧
    parseU32 " 3".data = none ∧
    parseU32 "3 ".data = none ∧
    parseU32 "abc".data = none ∧
    parseU32 "".data = none ∧
    parseU32 "4294967295".data = some 4294967295 ∧
    parseU32 "4294967296".data = none :=
  ⟨checked_color_append, checked_texcoord_append, checked_joints_append,
   checked_weights_append, by decide, by decide, by decide, by decide,
   by decide, by decide, by decide, by decide⟩

/-- Witness for C4 (amended), applying the characterization at the concrete
suffix `"+3"`. -/
theorem semantic_index_suffix_parse_witness :
    Semantic.checked false ("COLOR_".data ++ "+3".data) =
      match parseU32 "+3".data with
      | some set => Checked.Valid (Semantic.Colors set)
      | none => Checked.Invalid :=
  semantic_index_suffix_parse.1 false "+3".data

/-- C5: the worked examples of the semantic decoder — `"COLOR_3"` is
`Valid (Colors 3)`, while `"COLOR_abc"`, `"COLOR_-1"`, `"COLOR_"` and
`"FOOBAR"` are `Invalid` — independently of the extras capability. -/
theorem semantic_decoder_examples (extras : Bool) :
    Semantic.checked extras "COLOR_3".data = .Valid (.Colors 3) ∧
    Semantic.checked extras "COLOR_abc".data = .Invalid ∧
    Semantic.checked extras "COLOR_-1".data = .Invalid ∧
    Semantic.checked extras "COLOR_".data = .Invalid ∧
    Semantic.checked extras "FOOBAR".data = .Invalid := by
  cases extras <;> exact ⟨rfl, rfl, rfl, rfl, rfl⟩

/-- Witness for C5 with the capability flag off. -/
theorem semantic_decoder_examples_witness :
    Semantic.checked false "COLOR_3".data = .Valid (.Colors 3) :=
  (semantic_decoder_examples false).1

/-- C6: encoding the result of decoding returns each listed valid name
exactly: `encode(decode(s)) = s` for POSITION, NORMAL, TANGENT, COLOR_0,
TEXCOORD_2, JOINTS_1 and WEIGHTS_0. -/
theorem encode_decode_roundtrip (extras : Bool) :
    Checked.toChars (Semantic.checked extras "POSITION".data) = "POSITION".data ∧
    Checked.toChars (Semantic.checked extras "NORMAL".data) = "NORMAL".data ∧
    Checked.toChars (Semantic.checked extras "TANGENT".data) = "TANGENT".data ∧
    Checked.toChars (Semantic.checked extras "COLOR_0".data) = "COLOR_0".data ∧
    Checked.toChars (Semantic.checked extras "TEXCOORD_2".data) = "TEXCOORD_2".data ∧
    Checked.toChars (Semantic.checked extras "JOINTS_1".data) = "JOINTS_1".data ∧
    Checked.toChars (Semantic.checked extras "WEIGHTS_0".data) = "WEIGHTS_0".data := by
  cases extras <;> exact ⟨rfl, rfl, rfl, rfl, rfl, rfl, rfl⟩

/-- Witness for C6 with the capability flag off. -/
theorem encode_decode_roundtrip_witness :
    Checked.toChars (Semantic.checked false "TEXCOORD_2".data) = "TEXCOORD_2".data :=
  (encode_decode_roundtrip false).2.2.2.2.1

/-- C9: decoding the canonical encoding of any non-`Extras` semantic value
with a `u32` set index returns `Valid` of that very value:
`Semantic::checked(v.to_string()) = Valid(v)` for arbitrary indices, not
just the examples. -/
theorem semantic_roundtrip (extras : Bool) (v : Semantic)
    (hnx : ∀ name, v ≠ .Extras name) (hb : Semantic.setBound v) :
    Semantic.checked extras v.toChars = .Valid v := by
  cases v with
  | Extras name => exact absurd rfl (hnx name)
  | Positions => cases extras <;> rfl
  | Normals => cases extras <;> rfl
  | Tangents => cases extras <;> rfl
  | Colors set =>
    have hlt : set < 2 ^ 32 := hb
    simp only [Semantic.toChars]
    rw [checked_color_append, parseU32_natToDigits set hlt]
  | TexCoords set =>
    have hlt : set < 2 ^ 32 := hb
    simp only [Semantic.toChars]
    rw [checked_texcoord_append, parseU32_natToDigits set hlt]
  | Joints set =>
    have hlt : set < 2 ^ 32 := hb
    simp only [Semantic.toChars]
    rw [checked_joints_append, parseU32_natToDigits set hlt]
  | Weights set =>
    have hlt : set < 2 ^ 32 := hb
    simp only [Semantic.toChars]
    rw [checked_weights_append, parseU32_natToDigits set hlt]

/-- Witness for C9 at two concrete values, one with the largest `u32`
index. -/
theorem semantic_roundtrip_witness :
    Semantic.checked false (Semantic.toChars (.Colors 3)) = .Valid (.Colors 3) ∧
    Semantic.checked false (Semantic.toChars (.Weights 4294967295)) =
      .Valid (.Weights 4294967295) :=
  ⟨semantic_roundtrip false (.Colors 3) (fun _ h => Semantic.noConfusion h)
      (by show 3 < 2 ^ 32; decide),
   semantic_roundtrip false (.Weights 4294967295) (fun _ h => Semantic.noConfusion h)
      (by show 4294967295 < 2 ^ 32; decide)⟩

/-! ## Lemmas about the struct decoders -/

/-- Inversion for a mapped `Except` that came out `ok`. -/
theorem exceptMap_ok {e a b : Type} {g : a → b} {x : Except e a} {y : b}
    (h : x.map g = .ok y) : ∃ v, x = .ok v ∧ y = g v := by
  cases x with
  | error err => simp [Except.map] at h
  | ok v =>
    refine ⟨v, rfl, ?_⟩
    simp only [Except.map] at h
    exact (Except.ok.inj h).symm

/-- Looking up the key just inserted finds the new value. -/
theorem lookupKV_insertKV_self (m : List (Checked Semantic × Nat))
    (k : Checked Semantic) (v : Nat) : lookupKV (insertKV m k v) k = some v := by
  induction m with
  | nil => simp [insertKV, lookupKV]
  | cons p rest ih =>
    obtain ⟨k0, v0⟩ := p
    by_cases hk : k0 = k
    · simp [insertKV, hk, lookupKV]
    · simp [insertKV, hk, lookupKV, ih]

/-- Insertion under a different key does not disturb a lookup. -/
theorem lookupKV_insertKV_ne (m : List (Checked Semantic × Nat))
    (k q : Checked Semantic) (v : Nat) (hq : k ≠ q) :
    lookupKV (insertKV m k v) q = lookupKV m q := by
  induction m with
  | nil => simp [insertKV, lookupKV, hq]
  | cons p rest ih =>
    obtain ⟨k0, v0⟩ := p
    by_cases hk : k0 = k
    · subst hk
      simp [insertKV, lookupKV, hq]
    · simp [insertKV, hk, lookupKV, ih]

/-- Processing attribute entries none of whose keys decode to `k` leaves
the lookup of `k` unchanged. -/
theorem decodeAttrEntries_lookup_stable (extras : Bool) :
    ∀ (entries : List (List Char × Json)) (acc m : List (Checked Semantic × Nat))
      (k : Checked Semantic),
      decodeAttrEntries extras entries acc = .ok m →
      (∀ p ∈ entries, Semantic.checked extras p.1 ≠ k) →
      lookupKV m k = lookupKV acc k := by
  intro entries
  induction entries with
  | nil =>
    intro acc m k h _
    simp only [decodeAttrEntries] at h
    rw [← Except.ok.inj h]
  | cons p rest ih =>
    obtain ⟨s0, j0⟩ := p
    intro acc m k h hne
    simp only [decodeAttrEntries] at h
    cases hd : decodeU32 j0 with
    | error err => rw [hd] at h; exact Except.noConfusion h
    | ok n =>
      rw [hd] at h
      have hstep := ih (insertKV acc (Semantic.checked extras s0) n) m k h
        (fun q hq => hne q (List.mem_cons_of_mem _ hq))
      rw [hstep]
      exact lookupKV_insertKV_ne acc (Semantic.checked extras s0) k n
        (hne (s0, j0) (List.mem_cons_self _ _))

/-- The entry loop splits over an append: if the whole run succeeds, the
first half succeeds into an intermediate map from which the second half
continues. -/
theorem decodeAttrEntries_append (extras : Bool) :
    ∀ (l1 l2 : List (List Char × Json)) (acc m : List (Checked Semantic × Nat)),
      decodeAttrEntries extras (l1 ++ l2) acc = .ok m →
      ∃ acc2, decodeAttrEntries extras l1 acc = .ok acc2 ∧
        decodeAttrEntries extras l2 acc2 = .ok m := by
  intro l1
  induction l1 with
  | nil =>
    intro l2 acc m h
    exact ⟨acc, rfl, h⟩
  | cons p rest ih =>
    obtain ⟨s0, j0⟩ := p
    intro l2 acc m h
    rw [List.cons_append] at h
    simp only [decodeAttrEntries] at h
    cases hd : decodeU32 j0 with
    | error err => rw [hd] at h; exact Except.noConfusion h
    | ok n0 =>
      rw [hd] at h
      obtain ⟨acc2, h1, h2⟩ := ih l2 (insertKV acc (Semantic.checked extras s0) n0) m h
      refine ⟨acc2, ?_, h2⟩
      simp only [decodeAttrEntries]
      rw [hd]
      exact h1

/-- Last write wins, in general: an entry is found in the decoded map under
its decoded key with its own value as long as no *later* entry's key
decodes to the same `Checked` value — earlier entries, colliding or not,
are simply overwritten. -/
theorem decodeAttrEntries_last_write (extras : Bool)
    (pre post : List (List Char × Json)) (s : List Char) (j : Json) (n : Nat)
    (acc m : List (Checked Semantic × Nat))
    (h : decodeAttrEntries extras (pre ++ (s, j) :: post) acc = .ok m)
    (hj : decodeU32 j = .ok n)
    (hpost : ∀ p ∈ post, Semantic.checked extras p.1 ≠ Semantic.checked extras s) :
    lookupKV m (Semantic.checked extras s) = some n := by
  obtain ⟨acc2, _, h2⟩ := decodeAttrEntries_append extras pre ((s, j) :: post) acc m h
  simp only [decodeAttrEntries] at h2
  rw [hj] at h2
  rw [decodeAttrEntries_lookup_stable extras post _ m (Semantic.checked extras s) h2 hpost]
  exact lookupKV_insertKV_self acc2 (Semantic.checked extras s) n

/-! ## Claims about the attributes map decoder -/

/-- C2 counterexample: the claim says decoding retains every key-value pair
even when a key decodes to `Invalid`, but two distinct unrecognized keys
both decode to `Invalid` and collide in the map — here `"FOO" = 1` and
`"BAR" = 2` decode with no structural error to a one-entry map, and the
pair carrying the value 1 is gone. -/
theorem attributes_retention_counterexample :
    decodeAttributes false (Json.obj [("FOO".data, Json.num 1), ("BAR".data, Json.num 2)]) =
      .ok [(Checked.Invalid, 2)] ∧
    Semantic.checked false "FOO".data = .Invalid ∧
    Semantic.checked false "BAR".data = .Invalid ∧
    (1 : Nat) ∉ (([(Checked.Invalid, 2)] : List (Checked Semantic × Nat)).map Prod.snd) :=
  ⟨rfl, rfl, rfl, by decide⟩

/-- C2 (amended): the attributes decoder never drops an entry for having an
unrecognized key — every entry whose decoded key differs from all other
entries' decoded keys is retained under that `Checked` key with its own
value, and entries whose keys decode equal collapse by last-write-wins map
insertion: an entry is retained whenever no *later* entry's key decodes to
the same `Checked` value; in particular a primitive attributes map with one
valid and one unrecognized key decodes with no structural error and keeps
both entries. -/
theorem attributes_map_retention :
    (∀ (extras : Bool) (pre post : List (List Char × Json)) (s : List Char)
        (j : Json) (n : Nat) (m : List (Checked Semantic × Nat)),
        decodeAttributes extras (Json.obj (pre ++ (s, j) :: post)) = .ok m →
        decodeU32 j = .ok n →
        (∀ p ∈ pre ++ post, Semantic.checked extras p.1 ≠ Semantic.checked extras s) →
        lookupKV m (Semantic.checked extras s) = some n) ∧
    (∀ (extras : Bool) (pre post : List (List Char × Json)) (s : List Char)
        (j : Json) (n : Nat) (m : List (Checked Semantic × Nat)),
        decodeAttributes extras (Json.obj (pre ++ (s, j) :: post)) = .ok m →
        decodeU32 j = .ok n →
        (∀ p ∈ post, Semantic.checked extras p.1 ≠ Semantic.checked extras s) →
        lookupKV m (Semantic.checked extras s) = some n) := by
  constructor
  · intro extras pre post s j n m h hj hdist
    exact decodeAttrEntries_last_write extras pre post s j n [] m h hj
      (fun p hp => hdist p (List.mem_append_right pre hp))
  · intro extras pre post s j n m h hj hpost
    exact decodeAttrEntries_last_write extras pre post s j n [] m h hj hpost

/-- Witness for C2 (amended): in the one-valid-one-unrecognized-key example
— `"POSITION" = 5` together with `"FOOBAR" = 7` — each entry's decoded key
differs from the other's, and both entries are present in the decoded map;
and in the two-`Invalid`-keys map `"FOO" = 1`, `"BAR" = 2` the later entry
wins the `Invalid` slot. -/
theorem attributes_map_retention_witness :
    lookupKV [(Checked.Valid Semantic.Positions, 5), (Checked.Invalid, 7)]
      (Semantic.checked false "POSITION".data) = some 5 ∧
    lookupKV [(Checked.Valid Semantic.Positions, 5), (Checked.Invalid, 7)]
      (Semantic.checked false "FOOBAR".data) = some 7 ∧
    lookupKV [(Checked.Invalid, 2)] (Semantic.checked false "BAR".data) = some 2 :=
  ⟨attributes_map_retention.1 false [] [("FOOBAR".data, Json.num 7)]
      "POSITION".data (Json.num 5) 5
      [(Checked.Valid Semantic.Positions, 5), (Checked.Invalid, 7)] rfl rfl (by decide),
   attributes_map_retention.1 false [("POSITION".data, Json.num 5)] []
      "FOOBAR".data (Json.num 7) 7
      [(Checked.Valid Semantic.Positions, 5), (Checked.Invalid, 7)] rfl rfl (by decide),
   attributes_map_retention.2 false [("FOO".data, Json.num 1)] []
      "BAR".data (Json.num 2) 2
      [(Checked.Invalid, 2)] rfl rfl (by decide)⟩

/-- A field step under a key other than `mode` leaves the mode slot of the
`Primitive` visitor untouched. -/
theorem primStep_mode_stable (extras : Bool) (s : PrimSlots) (k : List Char)
    (v : Json) (s' : PrimSlots) (hk : k ≠ "mode".data)
    (h : primStep extras s k v = .ok s') : s'.mode = s.mode := by
  simp only [primStep] at h
  split_ifs at h
  all_goals first
    | exact absurd (by assumption) hk
    | exact Except.noConfusion h
    | (injection h with h2; rw [← h2])
    | (obtain ⟨x, hx, hb⟩ := exceptMap_ok h; rw [hb])

/-- A field step under a key other than `primitives` leaves the primitives
slot of the `Mesh` visitor untouched. -/
theorem meshStep_primitives_stable (extras : Bool) (s : MeshSlots) (k : List Char)
    (v : Json) (s' : MeshSlots) (hk : k ≠ "primitives".data)
    (h : meshStep extras s k v = .ok s') : s'.primitives = s.primitives := by
  simp only [meshStep] at h
  split_ifs at h
  all_goals first
    | exact absurd (by assumption) hk
    | exact Except.noConfusion h
    | (injection h with h2; rw [← h2])
    | (obtain ⟨x, hx, hb⟩ := exceptMap_ok h; rw [hb])

/-- The field loop of the `Primitive` visitor never fills the mode slot
when the input has no `mode` field. -/
theorem decodePrimitiveFields_mode_none (extras : Bool) :
    ∀ (fields : List (List Char × Json)) (s s' : PrimSlots),
      decodePrimitiveFields extras fields s = .ok s' →
      lookupField fields "mode".data = none →
      s.mode = none → s'.mode = none := by
  intro fields
  induction fields with
  | nil =>
    intro s s' h _ hm
    simp only [decodePrimitiveFields] at h
    rw [← Except.ok.inj h]
    exact hm
  | cons p rest ih =>
    obtain ⟨k, v⟩ := p
    intro s s' h hl hm
    simp only [decodePrimitiveFields] at h
    simp only [lookupField] at hl
    have hk : k ≠ "mode".data := by
      intro hkk
      rw [if_pos hkk] at hl
      exact Option.noConfusion hl
    rw [if_neg hk] at hl
    cases hs : primStep extras s k v with
    | error e => rw [hs] at h; exact Except.noConfusion h
    | ok s1 =>
      rw [hs] at h
      refine ih s1 s' h hl ?_
      rw [primStep_mode_stable extras s k v s1 hk hs]
      exact hm

/-- The field loop of the `Mesh` visitor never fills the primitives slot
when the input has no `primitives` field. -/
theorem decodeMeshFields_primitives_none (extras : Bool) :
    ∀ (fields : List (List Char × Json)) (s s' : MeshSlots),
      decodeMeshFields extras fields s = .ok s' →
      lookupField fields "primitives".data = none →
      s.primitives = none → s'.primitives = none := by
  intro fields
  induction fields with
  | nil =>
    intro s s' h _ hm
    simp only [decodeMeshFields] at h
    rw [← Except.ok.inj h]
    exact hm
  | cons p rest ih =>
    obtain ⟨k, v⟩ := p
    intro s s' h hl hm
    simp only [decodeMeshFields] at h
    simp only [lookupField] at hl
    have hk : k ≠ "primitives".data := by
      intro hkk
      rw [if_pos hkk] at hl
      exact Option.noConfusion hl
    rw [if_neg hk] at hl
    cases hs : meshStep extras s k v with
    | error e => rw [hs] at h; exact Except.noConfusion h
    | ok s1 =>
      rw [hs] at h
      refine ih s1 s' h hl ?_
      rw [meshStep_primitives_stable extras s k v s1 hk hs]
      exact hm

/-! ## Claims about the Primitive and Mesh decoders -/

/-- C7: a primitive whose input carries no `mode` field decodes — whenever
it decodes at all — to a primitive whose mode is `Valid Triangles`, the
`#[serde(default)]` value `Checked::Valid(Mode::default())`. -/
theorem primitive_absent_mode_default (extras : Bool)
    (fields : List (List Char × Json)) (p : Primitive)
    (hl : lookupField fields "mode".data = none)
    (h : decodePrimitive extras (Json.obj fields) = .ok p) :
    p.mode = .Valid .Triangles := by
  simp only [decodePrimitive] at h
  cases hs : decodePrimitiveFields extras fields {} with
  | error e => rw [hs] at h; exact Except.noConfusion h
  | ok s =>
    rw [hs] at h
    have h2 : primitiveOfSlots s = .ok p := h
    have hmode : s.mode = none :=
      decodePrimitiveFields_mode_none extras fields {} s hs hl rfl
    simp only [primitiveOfSlots] at h2
    cases ha : s.attributes with
    | none => rw [ha] at h2; exact Except.noConfusion h2
    | some attrs =>
      rw [ha] at h2
      rw [← Except.ok.inj h2]
      show (s.mode).getD (Checked.mkDefault Mode.default) = .Valid .Triangles
      rw [hmode]
      rfl

/-- Witness for C7: a concrete primitive object with only an `attributes`
field decodes, and the claim theorem yields its defaulted mode. -/
theorem primitive_absent_mode_default_witness :
    Primitive.mode
      { attributes := []
        extensions := ()
        extras := Json.null
        indices := none
        material := none
        mode := .Valid .Triangles
        targets := none } = .Valid .Triangles :=
  primitive_absent_mode_default false [("attributes".data, Json.obj [])]
    { attributes := []
      extensions := ()
      extras := Json.null
      indices := none
      material := none
      mode := .Valid .Triangles
      targets := none } rfl rfl

/-- C8 counterexample: the claim says every mesh input missing the required
`primitives` field yields a structural error identifying that field, but a
mesh object whose earlier `extensions` field is itself ill-shaped aborts
with the error for `extensions` instead — the error does not identify
`primitives` although that field is missing too. -/
theorem mesh_missing_primitives_counterexample :
    decodeMesh false (Json.obj [("extensions".data, Json.str "bad".data)]) =
      .error (.invalidType "object".data) ∧
    lookupField [("extensions".data, Json.str "bad".data)] "primitives".data = none ∧
    decodeMesh false (Json.obj [("extensions".data, Json.str "bad".data)]) ≠
      .error (.missingField "primitives".data) := by
  refine ⟨rfl, rfl, ?_⟩
  intro h
  rw [show decodeMesh false (Json.obj [("extensions".data, Json.str "bad".data)]) =
      .error (.invalidType "object".data) from rfl] at h
  injection h with h2
  exact StructuralError.noConfusion h2

/-- C8 (amended): a mesh input missing the required `primitives` field
never decodes to a `Mesh` — the decode of that node always aborts with a
structural error — and when every present field itself decodes without
error (the field loop succeeds) the error is the `missing field` error
identifying `primitives`; when an earlier ill-shaped field makes the field
loop fail, its own structural error pre-empts it. -/
theorem mesh_missing_primitives_error :
    (∀ (extras : Bool) (fields : List (List Char × Json)),
        lookupField fields "primitives".data = none →
        ∀ m : Mesh, decodeMesh extras (Json.obj fields) ≠ .ok m) ∧
    (∀ (extras : Bool) (fields : List (List Char × Json)) (s : MeshSlots),
        lookupField fields "primitives".data = none →
        decodeMeshFields extras fields {} = .ok s →
        decodeMesh extras (Json.obj fields) =
          .error (.missingField "primitives".data)) ∧
    (∀ (extras : Bool) (fields : List (List Char × Json)) (e : StructuralError),
        decodeMeshFields extras fields {} = .error e →
        decodeMesh extras (Json.obj fields) = .error e) := by
  refine ⟨?_, ?_, ?_⟩
  · intro extras fields hl m h
    simp only [decodeMesh] at h
    cases hs : decodeMeshFields extras fields {} with
    | error e => rw [hs] at h; exact Except.noConfusion h
    | ok s =>
      rw [hs] at h
      have h2 : meshOfSlots s = .ok m := h
      have hprim : s.primitives = none :=
        decodeMeshFields_primitives_none extras fields {} s hs hl rfl
      simp only [meshOfSlots] at h2
      rw [hprim] at h2
      exact Except.noConfusion h2
  · intro extras fields s hl hs
    simp only [decodeMesh]
    rw [hs]
    have hprim : s.primitives = none :=
      decodeMeshFields_primitives_none extras fields {} s hs hl rfl
    show meshOfSlots s = .error (.missingField "primitives".data)
    simp only [meshOfSlots]
    rw [hprim]
  · intro extras fields e he
    simp only [decodeMesh]
    rw [he]

/-- Witness for C8 (amended), one concrete input per clause: the empty mesh
object is not decodable to any concrete mesh; an object with well-shaped
`extensions` and `weights` fields but no `primitives` errors naming
`primitives`; an object whose `extensions` field is a string errors with
the `extensions` invalid-type error. -/
theorem mesh_missing_primitives_error_witness :
    decodeMesh false (Json.obj []) ≠
      .ok { extensions := (), extras := Json.null, primitives := [], weights := none } ∧
    decodeMesh false
        (Json.obj [("extensions".data, Json.obj []), ("weights".data, Json.null)]) =
      .error (.missingField "primitives".data) ∧
    decodeMesh false (Json.obj [("extensions".data, Json.str "bad".data)]) =
      .error (.invalidType "object".data) :=
  ⟨mesh_missing_primitives_error.1 false [] rfl
      { extensions := (), extras := Json.null, primitives := [], weights := none },
   mesh_missing_primitives_error.2.1 false
      [("extensions".data, Json.obj []), ("weights".data, Json.null)]
      { extensions := some (), extras := none, primitives := none, weights := some none }
      rfl rfl,
   mesh_missing_primitives_error.2.2 false [("extensions".data, Json.str "bad".data)]
      (.invalidType "object".data) rfl⟩

end Gltf

